import Mathlib

/-
Verification of the Gemini analysis-response normalizer (`parseGeminiResponse`
and its helpers in the document-analysis service) against its design
specification.

Embedding conventions:
- JavaScript strings are Lean `String`s; character-level work is done on
  `String.data : List Char`.
- The fixed regular expressions of the source are embedded as explicit
  scanners that reproduce the leftmost-match and greedy/backtracking
  behaviour of the JS engine for exactly those patterns.
- JS numbers are modelled as exact rationals (`ℚ`): every arithmetic
  operation performed on scores (parseFloat of an unsigned decimal token,
  division by 10/100/8, multiplication by 0.1, min/max clamping) is exact
  on the values compared by the specification.
- `\s` is modelled by `Char.isWhitespace` (space, tab, CR, LF), which agrees
  with JS on the ASCII inputs the normalizer handles.
- The record object is modelled by the structure `ParsedAnalysis`; the JS
  `Record<string,string>` for dates is a key-unique association list with
  JS property-assignment semantics (overwrite in place, else append).
-/

namespace GenClario

/-- `tag.data` is a literal prefix of `l` (JS `String.prototype.startsWith`). -/
def leadsWith : List Char → List Char → Bool
  | [], _ => true
  | _ :: _, [] => false
  | p :: ps, c :: cs => (p == c) && leadsWith ps cs

def jsStartsWith (s tag : String) : Bool := leadsWith tag.data s.data

/-- Case-insensitive literal prefix test; the pattern is given in lowercase. -/
def ciPref : List Char → List Char → Bool
  | [], _ => true
  | _ :: _, [] => false
  | p :: ps, c :: cs => (c.toLower == p) && ciPref ps cs

/-- Needle occurs as a contiguous substring (JS `String.prototype.includes`). -/
def hasSub (n : List Char) : List Char → Bool
  | [] => n.isEmpty
  | c :: cs => leadsWith n (c :: cs) || hasSub n cs

def containsSub (s sub : String) : Bool := hasSub sub.data s.data

def trimL (l : List Char) : List Char :=
  ((l.dropWhile Char.isWhitespace).reverse.dropWhile Char.isWhitespace).reverse

/-- JS `String.prototype.trim`. -/
def jsTrim (s : String) : String := String.mk (trimL s.data)

def jsToLower (s : String) : String := String.mk (s.data.map Char.toLower)

/-- Split on every occurrence of a single character, keeping empty pieces
(JS `String.prototype.split` with a one-character separator). -/
def splitChar (sep : Char) : List Char → List (List Char)
  | [] => [[]]
  | c :: cs =>
    if c = sep then [] :: splitChar sep cs
    else
      match splitChar sep cs with
      | [] => [[c]]
      | h :: t => (c :: h) :: t

/-- Split on every occurrence of a literal multi-character separator, scanning
left to right without overlap (JS `String.prototype.split` with a string
separator). Fuelled by the input length; each step consumes at least one
character, so the fuel `l.length + 1` never runs out for nonempty separators. -/
def splitLitAux : ℕ → List Char → List Char → List Char → List (List Char)
  | 0, _, cur, l => [cur.reverse ++ l]
  | _ + 1, _, cur, [] => [cur.reverse]
  | fuel + 1, sep, cur, c :: cs =>
    if leadsWith sep (c :: cs) then
      cur.reverse :: splitLitAux fuel sep [] ((c :: cs).drop sep.length)
    else
      splitLitAux fuel sep (c :: cur) cs

def jsSplitOn (s sep : String) : List String :=
  (splitLitAux (s.data.length + 1) sep.data [] s.data).map String.mk

/-- Index `[1]` of a JS array, `undefined` modelled as `none`. -/
def idx1 : List String → Option String
  | _ :: x :: _ => some x
  | _ => none

/-- JS `a || b` on possibly-undefined strings: an empty string is falsy. -/
def jsOrS (a b : Option String) : Option String :=
  match a with
  | some s => if s = "" then b else some s
  | none => b

/-- JS truthiness filter for `if (x)` on a possibly-undefined string. -/
def truthyS : Option String → Option String
  | some s => if s = "" then none else some s
  | none => none

/-- Position of the next section boundary: one or more digits immediately
followed by a period (the lookahead `(?=\d+\.)` of the source's split). -/
def digitsThenDot (l : List Char) : Bool :=
  match l.takeWhile Char.isDigit with
  | [] => false
  | ds =>
    match l.drop ds.length with
    | '.' :: _ => true
    | _ => false

/-- `text.split(/(?=\d+\.)/)`: split before every position matching the
lookahead, never producing a leading empty piece (JS split skips an empty
match at index 0). -/
def splitSectionsAux (cur : List Char) : List Char → List (List Char)
  | [] => [cur.reverse]
  | c :: cs =>
    if cur ≠ [] ∧ digitsThenDot (c :: cs) then
      cur.reverse :: splitSectionsAux [c] cs
    else
      splitSectionsAux (c :: cur) cs

def splitSections (text : String) : List String :=
  (splitSectionsAux [] text.data).map String.mk

/-- A trimmed line qualifying as a bullet item starts with a hyphen. -/
def startsDash (l : List Char) : Bool :=
  match l with
  | '-' :: _ => true
  | _ => false

/-- `line.replace(/^[-*]\s*/, '')`. -/
def stripBulletMarker (l : List Char) : List Char :=
  match l with
  | c :: cs => if c = '-' ∨ c = '*' then cs.dropWhile Char.isWhitespace else l
  | [] => []

/-- The source's `extractListItems`: split into lines, trim each, keep lines
starting with a hyphen, strip the leading marker and following whitespace,
drop empty results. -/
def extractListItems (s : String) : List String :=
  (((((splitChar '\n' s.data).map trimL).filter startsDash).map
    stripBulletMarker).filter (fun l => ¬l.isEmpty)).map String.mk

/-- Capture body of `[^\n-]+`: maximal run of characters that are neither a
newline nor a hyphen. -/
def takeNonBreak (l : List Char) : List Char :=
  l.takeWhile (fun c => ¬(c = '\n' ∨ c = '-'))

/-- `\s*([^\n-]+)` at a fixed position, with the JS engine's greedy `\s*` and
backtracking (a shorter whitespace prefix is retried when the capture cannot
start after the longer one). -/
def wsThenValue : List Char → Option (List Char)
  | [] => none
  | c :: cs =>
    if c.isWhitespace then
      match wsThenValue cs with
      | some r => some r
      | none => if ¬(c = '\n' ∨ c = '-') then some (takeNonBreak (c :: cs)) else none
    else
      if ¬(c = '\n' ∨ c = '-') then some (takeNonBreak (c :: cs)) else none

/-- `/Type:\s*([^\n-]+)/i` attempted at one position. -/
def typeAttempt1 (l : List Char) : Option (List Char) :=
  if ciPref "type:".data l then wsThenValue (l.drop 5) else none

/-- `/Document Type:\s*([^\n-]+)/i` attempted at one position. -/
def typeAttempt2 (l : List Char) : Option (List Char) :=
  if ciPref "document type:".data l then wsThenValue (l.drop 14) else none

/-- `/Type\s*:\s*([^\n-]+)/i` attempted at one position. -/
def typeAttempt3 (l : List Char) : Option (List Char) :=
  if ciPref "type".data l then
    match (l.drop 4).dropWhile Char.isWhitespace with
    | ':' :: rest => wsThenValue rest
    | _ => none
  else none

/-- Leftmost match: try the attempt at every position, left to right
(JS `String.prototype.match` with a non-anchored regex). -/
def scanFirst (f : List Char → Option α) : List Char → Option α
  | [] => f []
  | c :: cs =>
    match f (c :: cs) with
    | some r => some r
    | none => scanFirst f cs

/-- The three-pattern chain for the document-type label, first match wins. -/
def matchTypeChain (s : String) : Option (List Char) :=
  match scanFirst typeAttempt1 s.data with
  | some c => some c
  | none =>
    match scanFirst typeAttempt2 s.data with
    | some c => some c
    | none => scanFirst typeAttempt3 s.data

/-- Tail of `\s*:?\s*` after a matched keyword: maximal whitespace, optional
colon, maximal whitespace. -/
def afterColonWs (l : List Char) : List Char :=
  match l.dropWhile Char.isWhitespace with
  | ':' :: r => r.dropWhile Char.isWhitespace
  | m => m

/-- `/\s*and\s+Purpose\s*:?\s*/i` attempted at one position; returns the
remainder after the matched token. -/
def andPurposeAttempt (l : List Char) : Option (List Char) :=
  let m := l.dropWhile Char.isWhitespace
  if ciPref "and".data m then
    let m2 := m.drop 3
    let m3 := m2.dropWhile Char.isWhitespace
    if m3.length < m2.length ∧ ciPref "purpose".data m3 then
      some (afterColonWs (m3.drop 7))
    else none
  else none

/-- `/\s*-\s*Purpose\s*:?\s*/i` attempted at one position. -/
def dashPurposeAttempt (l : List Char) : Option (List Char) :=
  match l.dropWhile Char.isWhitespace with
  | '-' :: m2 =>
    let m3 := m2.dropWhile Char.isWhitespace
    if ciPref "purpose".data m3 then some (afterColonWs (m3.drop 7)) else none
  | _ => none

/-- `/\s*Purpose\s*:?\s*/i` attempted at one position. -/
def purposeAttempt (l : List Char) : Option (List Char) :=
  let m := l.dropWhile Char.isWhitespace
  if ciPref "purpose".data m then some (afterColonWs (m.drop 7)) else none

/-- Non-global `String.prototype.replace` with empty replacement: delete the
leftmost match, found by trying the attempt at each position. -/
def removeFirst (att : List Char → Option (List Char)) : List Char → List Char
  | [] =>
    match att [] with
    | some r => r
    | none => []
  | c :: cs =>
    match att (c :: cs) with
    | some r => r
    | none => c :: removeFirst att cs

/-- `/\s*\([^)]*\)\s*/` attempted at one position; returns the remainder. -/
def parenAttempt (l : List Char) : Option (List Char) :=
  match l.dropWhile Char.isWhitespace with
  | '(' :: m2 =>
    let inner := m2.takeWhile (fun c => c ≠ ')')
    match m2.drop inner.length with
    | ')' :: m3 => some (m3.dropWhile Char.isWhitespace)
    | _ => none
  | _ => none

/-- Global replace of parenthetical substrings with empty replacement,
continuing after each match (JS `replace(/\s*\([^)]*\)\s*/g, '')`). Fuelled
by the input length; every step strictly shortens the remaining input. -/
def removeParens : ℕ → List Char → List Char
  | 0, l => l
  | _ + 1, [] => []
  | fuel + 1, c :: cs =>
    match parenAttempt (c :: cs) with
    | some r => removeParens fuel r
    | none => c :: removeParens fuel cs

/-- `replace(/[:\s]+$/, '')`: delete the trailing run of colons/whitespace. -/
def stripTrailingColonWs (l : List Char) : List Char :=
  (l.reverse.dropWhile (fun c => c = ':' ∨ c.isWhitespace)).reverse

/-- The document-type cleanup chain of section 1. -/
def cleanDocType (c : List Char) : String :=
  let e0 := trimL c
  let e1 := removeFirst andPurposeAttempt e0
  let e2 := removeFirst dashPurposeAttempt e1
  let e3 := removeFirst purposeAttempt e2
  let e4 := removeParens e3.length e3
  let e5 := stripTrailingColonWs e4
  String.mk (trimL e5)

/-- `/Risk Level:\s*(High|Medium|Low)/i` attempted at one position; the
capture is the matched text in its original case. -/
def riskAttempt (l : List Char) : Option (List Char) :=
  if ciPref "risk level:".data l then
    let m := (l.drop 11).dropWhile Char.isWhitespace
    if ciPref "high".data m then some (m.take 4)
    else if ciPref "medium".data m then some (m.take 6)
    else if ciPref "low".data m then some (m.take 3)
    else none
  else none

def matchRiskLevel (s : String) : Option (List Char) := scanFirst riskAttempt s.data

/-- `(\d+(?:\.\d+)?)` fractional part: a dot joined to at least one digit. -/
def fracOf (r : List Char) : List Char :=
  match r with
  | '.' :: r2 =>
    match r2.takeWhile Char.isDigit with
    | [] => []
    | fs => '.' :: fs
  | _ => []

/-- `(\d+(?:\.\d+)?)` attempted at one position. -/
def numCapture (m : List Char) : Option (List Char) :=
  match m.takeWhile Char.isDigit with
  | [] => none
  | ds => some (ds ++ fracOf (m.drop ds.length))

/-- `/Score:\s*(\d+(?:\.\d+)?)/i` attempted at one position. -/
def scoreAttempt1 (l : List Char) : Option (List Char) :=
  if ciPref "score:".data l then numCapture ((l.drop 6).dropWhile Char.isWhitespace)
  else none

/-- `/Score\s*:\s*(\d+(?:\.\d+)?)/i` attempted at one position. -/
def scoreAttempt2 (l : List Char) : Option (List Char) :=
  if ciPref "score".data l then
    match (l.drop 5).dropWhile Char.isWhitespace with
    | ':' :: rest => numCapture (rest.dropWhile Char.isWhitespace)
    | _ => none
  else none

/-- `/(\d+\.\d+)/` attempted at one position. -/
def scoreAttempt4 (l : List Char) : Option (List Char) :=
  match l.takeWhile Char.isDigit with
  | [] => none
  | ds =>
    match l.drop ds.length with
    | '.' :: r =>
      match r.takeWhile Char.isDigit with
      | [] => none
      | fs => some (ds ++ '.' :: fs)
    | _ => none

/-- The four-pattern chain of section 8, first successful match wins. -/
def scoreCapture (s : String) : Option (List Char) :=
  match scanFirst scoreAttempt1 s.data with
  | some c => some c
  | none =>
    match scanFirst scoreAttempt2 s.data with
    | some c => some c
    | none =>
      match scanFirst numCapture s.data with
      | some c => some c
      | none => scanFirst scoreAttempt4 s.data

def digitsToNat (l : List Char) : ℕ :=
  l.foldl (fun n c => n * 10 + (c.toNat - 48)) 0

/-- `parseFloat` on a captured token of shape `\d+(\.\d+)?`, exact in ℚ. -/
def parseFloatTok (c : List Char) : ℚ :=
  let ds := c.takeWhile Char.isDigit
  let rest := c.drop ds.length
  (digitsToNat ds : ℚ) +
    (match rest with
     | '.' :: fs => (digitsToNat fs : ℚ) / (10 : ℚ) ^ fs.length
     | _ => 0)

/-- The scale normalization applied to an extracted score. -/
def normalizeScore (q : ℚ) : ℚ :=
  if 0 ≤ q ∧ q ≤ 1 then q
  else if 1 < q ∧ q ≤ 10 then q / 10
  else if 10 < q ∧ q ≤ 100 then q / 100
  else min (q / 10) 1

/-- The analysis record accumulated by `parseGeminiResponse`. -/
structure ParsedAnalysis where
  documentType : String
  riskLevel : String
  riskFactors : List String
  completionScore : ℚ
  missingClauses : List String
  keyTerms : List String
  summary : String
  parties : List String
  dates : List (String × String)
  paymentTerms : String
  terminationClauses : List String
  concerningPoints : List String
deriving DecidableEq

/-- The initial values of the mutable accumulator variables. -/
def initState : ParsedAnalysis :=
  { documentType := "Document"
    riskLevel := "Medium"
    riskFactors := []
    completionScore := 1/2
    missingClauses := []
    keyTerms := []
    summary := ""
    parties := []
    dates := []
    paymentTerms := ""
    terminationClauses := []
    concerningPoints := [] }

/-- The record returned by the catch branch of `parseGeminiResponse`. -/
def defaultAnalysis : ParsedAnalysis :=
  { documentType := "Document"
    riskLevel := "Medium"
    riskFactors := []
    completionScore := 1/2
    missingClauses := []
    keyTerms := []
    summary := ""
    parties := []
    dates := []
    paymentTerms := ""
    terminationClauses := []
    concerningPoints := [] }

/-- Section 1: document type extraction and cleanup. -/
def sec1 (s : String) (st : ParsedAnalysis) : ParsedAnalysis :=
  {st with documentType :=
    match matchTypeChain s with
    | some c => cleanDocType c
    | none => st.documentType}

/-- JS object property assignment `dates[key] = value`: overwrite an existing
key in place, otherwise append. -/
def insertAssign : List (String × String) → String → String → List (String × String)
  | [], k, v => [(k, v)]
  | (k0, v0) :: rest, k, v =>
    if k0 = k then (k0, v) :: rest else (k0, v0) :: insertAssign rest k v

/-- One bullet item of section 3: split on every colon, trim the parts, take
the first two as key/value, keep only truthy (nonempty) key and value. -/
def dateStep (ds : List (String × String)) (item : String) : List (String × String) :=
  if item.data.contains ':' then
    match (splitChar ':' item.data).map trimL with
    | k :: v :: _ =>
      if k ≠ [] ∧ v ≠ [] then insertAssign ds (String.mk k) (String.mk v) else ds
    | _ => ds
  else ds

/-- Section 3: important dates. -/
def sec3 (s : String) (st : ParsedAnalysis) : ParsedAnalysis :=
  {st with dates := (extractListItems s).foldl dateStep st.dates}

/-- `replace(/^\d+\.\s*/, '')`. -/
def stripNumDot (l : List Char) : List Char :=
  match l.takeWhile Char.isDigit with
  | [] => l
  | ds =>
    match l.drop ds.length with
    | '.' :: r => r.dropWhile Char.isWhitespace
    | _ => l

def cleanPaymentItem (item : String) : String :=
  String.mk (trimL (stripNumDot (stripBulletMarker item.data)))

/-- Section 4: payment terms, cleaned and joined with the fixed separator. -/
def sec4 (s : String) (st : ParsedAnalysis) : ParsedAnalysis :=
  {st with paymentTerms :=
    (String.intercalate " || "
      (((extractListItems s).map cleanPaymentItem).filter (fun x => x.length > 0)))}

/-- `section.split('Risk Factors:')[1] || section.split('Risk Factors')[1]`,
filtered by the truthiness test of the enclosing `if`. -/
def riskSectionOf (s : String) : Option String :=
  truthyS (jsOrS (idx1 (jsSplitOn s "Risk Factors:")) (idx1 (jsSplitOn s "Risk Factors")))

/-- The concerning-elements analogue of `riskSectionOf`. -/
def concerningSectionOf (s : String) : Option String :=
  truthyS (jsOrS (idx1 (jsSplitOn s "Concerning Elements:"))
    (idx1 (jsSplitOn s "Concerning Elements")))

/-- Risk level inferred from the number of risk factors when no explicit
token matched. -/
def riskCountsLevel (n : ℕ) : String :=
  if n > 5 then "High" else if n > 2 then "Medium" else "Low"

/-- Risk level after the explicit-token step: the captured text verbatim, or
the previous value when no token matched. -/
def rl1Of (s : String) (st : ParsedAnalysis) : String :=
  match matchRiskLevel s with
  | some c => String.mk c
  | none => st.riskLevel

/-- Risk factors after the `Risk Factors` split: bullet items of the split
tail when it is truthy, otherwise the previous value. -/
def rfOf (s : String) (st : ParsedAnalysis) : List String :=
  match riskSectionOf s with
  | some t => extractListItems t
  | none => st.riskFactors

/-- Risk level after the factor-count fallback, which runs only inside the
truthy `Risk Factors` branch and only when no explicit token matched. -/
def rl2Of (s : String) (st : ParsedAnalysis) : String :=
  match riskSectionOf s with
  | some _ =>
    if (matchRiskLevel s).isSome then rl1Of s st
    else riskCountsLevel (rfOf s st).length
  | none => rl1Of s st

/-- Concerning points after the `Concerning Elements` split. -/
def cpOf (s : String) (st : ParsedAnalysis) : List String :=
  match concerningSectionOf s with
  | some t => extractListItems t
  | none => st.concerningPoints

/-- Risk level after the upgrade rule, which runs only inside the truthy
`Concerning Elements` branch. -/
def rl3Of (s : String) (st : ParsedAnalysis) : String :=
  match concerningSectionOf s with
  | some _ =>
    if (cpOf s st).length > 3 ∧ rl2Of s st ≠ "High" then "High" else rl2Of s st
  | none => rl2Of s st

/-- Section 6: risk assessment. The staged values mirror the source's
sequence of mutations: explicit token, factor extraction with count
fallback, concerning-point extraction with the upgrade rule. -/
def sec6 (s : String) (st : ParsedAnalysis) : ParsedAnalysis :=
  { st with
    riskLevel := rl3Of s st
    riskFactors := rfOf s st
    concerningPoints := cpOf s st }

/-- The fallback completion score computed from the accumulator when no
numeric token was captured in section 8: present tracked fields over the
fixed denominator 8, minus 0.1 per missing clause, clamped to [0, 1]. -/
def fallbackScore (st : ParsedAnalysis) : ℚ :=
  let missingCount := st.missingClauses.length
  let presentFields :=
    ([decide (st.parties.length > 0),
      decide (st.dates.length > 0),
      decide (st.keyTerms.length > 0),
      decide (st.riskFactors.length > 0),
      decide (st.paymentTerms.length > 0),
      decide (st.summary.length > 0)].filter (fun b => b)).length
  max 0 (min 1 ((presentFields : ℚ) / 8 - (missingCount : ℚ) * (1 / 10)))

/-- Section 8: completion score, either normalized from a captured numeric
token or computed by the fallback. -/
def sec8 (s : String) (st : ParsedAnalysis) : ParsedAnalysis :=
  {st with completionScore :=
    match scoreCapture s with
    | some c => normalizeScore (parseFloatTok c)
    | none => fallbackScore st}

/-- Section 9: plain-English summary, bullet items joined with one space. -/
def sec9 (s : String) (st : ParsedAnalysis) : ParsedAnalysis :=
  {st with summary := String.intercalate " " (extractListItems s)}

/-- Five keyTerms substrings marking a termination-related term. -/
def isTerminationTerm (term : String) : Bool :=
  let lowerTerm := jsToLower term
  containsSub lowerTerm "terminat" ||
  containsSub lowerTerm "cancel" ||
  containsSub lowerTerm "revoke" ||
  containsSub lowerTerm "end" ||
  containsSub lowerTerm "expiration"

/-- Section 2: parties, all bullet items verbatim. -/
def sec2 (s : String) (st : ParsedAnalysis) : ParsedAnalysis :=
  {st with parties := extractListItems s}

/-- Section 5: key terms, all bullet items verbatim. -/
def sec5 (s : String) (st : ParsedAnalysis) : ParsedAnalysis :=
  {st with keyTerms := extractListItems s}

/-- Section 7: missing or unclear elements, all bullet items verbatim. -/
def sec7 (s : String) (st : ParsedAnalysis) : ParsedAnalysis :=
  {st with missingClauses := extractListItems s}

/-- One `if (section.startsWith(tag)) { ... }` statement of the forEach body. -/
def applyTag (tag : String) (f : String → ParsedAnalysis → ParsedAnalysis)
    (s : String) (st : ParsedAnalysis) : ParsedAnalysis :=
  if jsStartsWith s tag then f s st else st

/-- One iteration of the `sections.forEach` body: skip sections that trim to
empty, then run each numbered extractor whose tag the (untrimmed) section
starts with, in source order over the shared accumulator. -/
def processSection (st : ParsedAnalysis) (s : String) : ParsedAnalysis :=
  if jsTrim s = "" then st
  else
    applyTag "9." sec9 s (applyTag "8." sec8 s (applyTag "7." sec7 s
      (applyTag "6." sec6 s (applyTag "5." sec5 s (applyTag "4." sec4 s
        (applyTag "3." sec3 s (applyTag "2." sec2 s (applyTag "1." sec1 s st))))))))

/-- The try-block body of `parseGeminiResponse`: segment, run the extractors
in document order over the shared accumulator, then derive the termination
clauses from the key terms. -/
def parseBody (text : String) : ParsedAnalysis :=
  let st := (splitSections text).foldl processSection initState
  {st with terminationClauses := st.keyTerms.filter isTerminationTerm}

/-- The try/catch boundary. Every JS operation used by the body
(`String.prototype.split/match/replace/trim/toLowerCase`, `parseFloat`,
array `map/filter/join`, object property assignment) is total on string
inputs, so the body is embedded as a total function and no error value is
ever produced. -/
def parseAttempt (text : String) : Except String ParsedAnalysis :=
  Except.ok (parseBody text)

/-- The normalizer: the try-block result, or the fully-defaulted record if
the (unreachable) catch branch were taken. -/
def parseGeminiResponse (text : String) : ParsedAnalysis :=
  match parseAttempt text with
  | Except.ok r => r
  | Except.error _ => defaultAnalysis

lemma jsStartsWith_shape (s t : String) (a b : Char) (ht : t.data = [a, b])
    (h : jsStartsWith s t = true) : ∃ r, s.data = a :: b :: r := by
  unfold jsStartsWith at h
  rw [ht] at h
  cases hd : s.data with
  | nil => rw [hd] at h; simp [leadsWith] at h
  | cons c cs =>
    rw [hd] at h
    cases cs with
    | nil => simp [leadsWith] at h
    | cons d ds =>
      simp [leadsWith, Bool.and_eq_true, beq_iff_eq] at h
      exact ⟨ds, by rw [h.1, h.2]⟩

lemma jsStartsWith_ne (s : String) (c : Char) (r : List Char) (hr : s.data = c :: r)
    (t : String) (a : Char) (ar : List Char) (ht : t.data = a :: ar)
    (hne : (a == c) = false) : jsStartsWith s t = false := by
  unfold jsStartsWith
  rw [hr, ht]
  simp [leadsWith, hne]

lemma trimL_cons_ne (c : Char) (r : List Char) (hc : c.isWhitespace = false) :
    trimL (c :: r) ≠ [] := by
  unfold trimL
  rw [List.dropWhile_cons]
  simp only [hc, Bool.false_eq_true, if_false]
  intro h
  rw [List.reverse_eq_nil_iff, List.dropWhile_eq_nil_iff] at h
  have := h c (by simp)
  rw [hc] at this
  exact absurd this (by simp)

lemma jsTrim_string_ne (s : String) (c : Char) (r : List Char) (hr : s.data = c :: r)
    (hc : c.isWhitespace = false) : ¬(jsTrim s = "") := by
  unfold jsTrim
  rw [hr]
  intro h
  have h2 : trimL (c :: r) = [] := by
    have h3 := congrArg String.data h
    simpa using h3
  exact trimL_cons_ne c r hc h2

lemma processSection_eq_sec6 (st : ParsedAnalysis) (s : String) (r : List Char)
    (hr : s.data = '6' :: '.' :: r) : processSection st s = sec6 s st := by
  have h6 : jsStartsWith s "6." = true := by
    unfold jsStartsWith
    rw [hr]
    simp [leadsWith]
  have h1 := jsStartsWith_ne s '6' ('.' :: r) hr "1." '1' ['.'] rfl (by decide)
  have h2 := jsStartsWith_ne s '6' ('.' :: r) hr "2." '2' ['.'] rfl (by decide)
  have h3 := jsStartsWith_ne s '6' ('.' :: r) hr "3." '3' ['.'] rfl (by decide)
  have h4 := jsStartsWith_ne s '6' ('.' :: r) hr "4." '4' ['.'] rfl (by decide)
  have h5 := jsStartsWith_ne s '6' ('.' :: r) hr "5." '5' ['.'] rfl (by decide)
  have h7 := jsStartsWith_ne s '6' ('.' :: r) hr "7." '7' ['.'] rfl (by decide)
  have h8 := jsStartsWith_ne s '6' ('.' :: r) hr "8." '8' ['.'] rfl (by decide)
  have h9 := jsStartsWith_ne s '6' ('.' :: r) hr "9." '9' ['.'] rfl (by decide)
  have ht := jsTrim_string_ne s '6' ('.' :: r) hr (by decide)
  unfold processSection
  simp [h1, h2, h3, h4, h5, h6, h7, h8, h9, ht, applyTag]

lemma processSection_eq_sec1 (st : ParsedAnalysis) (s : String) (r : List Char)
    (hr : s.data = '1' :: '.' :: r) : processSection st s = sec1 s st := by
  have h1 : jsStartsWith s "1." = true := by
    unfold jsStartsWith
    rw [hr]
    simp [leadsWith]
  have h2 := jsStartsWith_ne s '1' ('.' :: r) hr "2." '2' ['.'] rfl (by decide)
  have h3 := jsStartsWith_ne s '1' ('.' :: r) hr "3." '3' ['.'] rfl (by decide)
  have h4 := jsStartsWith_ne s '1' ('.' :: r) hr "4." '4' ['.'] rfl (by decide)
  have h5 := jsStartsWith_ne s '1' ('.' :: r) hr "5." '5' ['.'] rfl (by decide)
  have h6 := jsStartsWith_ne s '1' ('.' :: r) hr "6." '6' ['.'] rfl (by decide)
  have h7 := jsStartsWith_ne s '1' ('.' :: r) hr "7." '7' ['.'] rfl (by decide)
  have h8 := jsStartsWith_ne s '1' ('.' :: r) hr "8." '8' ['.'] rfl (by decide)
  have h9 := jsStartsWith_ne s '1' ('.' :: r) hr "9." '9' ['.'] rfl (by decide)
  have ht := jsTrim_string_ne s '1' ('.' :: r) hr (by decide)
  unfold processSection
  simp [h1, h2, h3, h4, h5, h6, h7, h8, h9, ht, applyTag]

lemma parseFloatTok_nonneg (c : List Char) : 0 ≤ parseFloatTok c := by
  unfold parseFloatTok
  dsimp only
  apply add_nonneg (Nat.cast_nonneg _)
  split
  · positivity
  · exact le_refl 0

lemma normalizeScore_bound (q : ℚ) (hq : 0 ≤ q) :
    0 ≤ normalizeScore q ∧ normalizeScore q ≤ 1 := by
  unfold normalizeScore
  split_ifs with h1 h2 h3
  · exact ⟨hq, h1.2⟩
  · exact ⟨div_nonneg hq (by norm_num), by rw [div_le_one (by norm_num : (0:ℚ) < 10)]; exact h2.2⟩
  · exact ⟨div_nonneg hq (by norm_num), by rw [div_le_one (by norm_num : (0:ℚ) < 100)]; exact h3.2⟩
  · exact ⟨le_min (div_nonneg hq (by norm_num)) zero_le_one, min_le_right _ _⟩

lemma fallbackScore_bound (st : ParsedAnalysis) :
    0 ≤ fallbackScore st ∧ fallbackScore st ≤ 1 := by
  unfold fallbackScore
  exact ⟨le_max_left 0 _, max_le (by norm_num) (min_le_left _ _)⟩

lemma sec8_score_bound (s : String) (st : ParsedAnalysis) :
    0 ≤ (sec8 s st).completionScore ∧ (sec8 s st).completionScore ≤ 1 := by
  unfold sec8
  dsimp only
  cases h : scoreCapture s with
  | some c =>
    exact normalizeScore_bound (parseFloatTok c) (parseFloatTok_nonneg c)
  | none =>
    exact fallbackScore_bound st

lemma applyTag_score1 (s : String) (st : ParsedAnalysis) :
    (applyTag "1." sec1 s st).completionScore = st.completionScore := by
  unfold applyTag; split <;> rfl

lemma applyTag_score2 (s : String) (st : ParsedAnalysis) :
    (applyTag "2." sec2 s st).completionScore = st.completionScore := by
  unfold applyTag; split <;> rfl

lemma applyTag_score3 (s : String) (st : ParsedAnalysis) :
    (applyTag "3." sec3 s st).completionScore = st.completionScore := by
  unfold applyTag; split <;> rfl

lemma applyTag_score4 (s : String) (st : ParsedAnalysis) :
    (applyTag "4." sec4 s st).completionScore = st.completionScore := by
  unfold applyTag; split <;> rfl

lemma applyTag_score5 (s : String) (st : ParsedAnalysis) :
    (applyTag "5." sec5 s st).completionScore = st.completionScore := by
  unfold applyTag; split <;> rfl

lemma applyTag_score6 (s : String) (st : ParsedAnalysis) :
    (applyTag "6." sec6 s st).completionScore = st.completionScore := by
  unfold applyTag; split <;> rfl

lemma applyTag_score7 (s : String) (st : ParsedAnalysis) :
    (applyTag "7." sec7 s st).completionScore = st.completionScore := by
  unfold applyTag; split <;> rfl

lemma applyTag_score9 (s : String) (st : ParsedAnalysis) :
    (applyTag "9." sec9 s st).completionScore = st.completionScore := by
  unfold applyTag; split <;> rfl

lemma applyTag8_score_bound (s : String) (st : ParsedAnalysis)
    (h : 0 ≤ st.completionScore ∧ st.completionScore ≤ 1) :
    0 ≤ (applyTag "8." sec8 s st).completionScore ∧
      (applyTag "8." sec8 s st).completionScore ≤ 1 := by
  unfold applyTag
  split
  · exact sec8_score_bound s st
  · exact h

lemma applyTag8_score_eq (s : String) (st : ParsedAnalysis)
    (h8 : jsStartsWith s "8." = false) :
    (applyTag "8." sec8 s st).completionScore = st.completionScore := by
  unfold applyTag
  rw [h8]
  rfl

lemma processSection_score_bound (st : ParsedAnalysis) (s : String)
    (h : 0 ≤ st.completionScore ∧ st.completionScore ≤ 1) :
    0 ≤ (processSection st s).completionScore ∧ (processSection st s).completionScore ≤ 1 := by
  unfold processSection
  split
  · exact h
  · rw [applyTag_score9]
    refine applyTag8_score_bound s _ ?_
    rw [applyTag_score7, applyTag_score6, applyTag_score5, applyTag_score4,
      applyTag_score3, applyTag_score2, applyTag_score1]
    exact h

lemma processSection_score_eq (st : ParsedAnalysis) (s : String)
    (h8 : jsStartsWith s "8." = false) :
    (processSection st s).completionScore = st.completionScore := by
  unfold processSection
  split
  · rfl
  · rw [applyTag_score9, applyTag8_score_eq _ _ h8, applyTag_score7, applyTag_score6,
      applyTag_score5, applyTag_score4, applyTag_score3, applyTag_score2, applyTag_score1]

lemma applyTag_rl1 (s : String) (st : ParsedAnalysis) :
    (applyTag "1." sec1 s st).riskLevel = st.riskLevel := by
  unfold applyTag; split <;> rfl

lemma applyTag_rl2 (s : String) (st : ParsedAnalysis) :
    (applyTag "2." sec2 s st).riskLevel = st.riskLevel := by
  unfold applyTag; split <;> rfl

lemma applyTag_rl3 (s : String) (st : ParsedAnalysis) :
    (applyTag "3." sec3 s st).riskLevel = st.riskLevel := by
  unfold applyTag; split <;> rfl

lemma applyTag_rl4 (s : String) (st : ParsedAnalysis) :
    (applyTag "4." sec4 s st).riskLevel = st.riskLevel := by
  unfold applyTag; split <;> rfl

lemma applyTag_rl5 (s : String) (st : ParsedAnalysis) :
    (applyTag "5." sec5 s st).riskLevel = st.riskLevel := by
  unfold applyTag; split <;> rfl

lemma applyTag_rl7 (s : String) (st : ParsedAnalysis) :
    (applyTag "7." sec7 s st).riskLevel = st.riskLevel := by
  unfold applyTag; split <;> rfl

lemma applyTag_rl8 (s : String) (st : ParsedAnalysis) :
    (applyTag "8." sec8 s st).riskLevel = st.riskLevel := by
  unfold applyTag; split <;> rfl

lemma applyTag_rl9 (s : String) (st : ParsedAnalysis) :
    (applyTag "9." sec9 s st).riskLevel = st.riskLevel := by
  unfold applyTag; split <;> rfl

lemma applyTag6_rl_eq (s : String) (st : ParsedAnalysis)
    (h6 : jsStartsWith s "6." = false) :
    (applyTag "6." sec6 s st).riskLevel = st.riskLevel := by
  unfold applyTag
  rw [h6]
  rfl

lemma processSection_riskLevel_eq (st : ParsedAnalysis) (s : String)
    (h6 : jsStartsWith s "6." = false) :
    (processSection st s).riskLevel = st.riskLevel := by
  unfold processSection
  split
  · rfl
  · rw [applyTag_rl9, applyTag_rl8, applyTag_rl7, applyTag6_rl_eq _ _ h6,
      applyTag_rl5, applyTag_rl4, applyTag_rl3, applyTag_rl2, applyTag_rl1]

lemma foldl_score_bound (L : List String) :
    ∀ st : ParsedAnalysis, 0 ≤ st.completionScore ∧ st.completionScore ≤ 1 →
      0 ≤ (L.foldl processSection st).completionScore ∧
        (L.foldl processSection st).completionScore ≤ 1 := by
  induction L with
  | nil => intro st h; exact h
  | cons s L ih => intro st h; exact ih _ (processSection_score_bound st s h)

lemma foldl_score_eq (L : List String) :
    ∀ st : ParsedAnalysis, (∀ s ∈ L, jsStartsWith s "8." = false) →
      (L.foldl processSection st).completionScore = st.completionScore := by
  induction L with
  | nil => intro st _; rfl
  | cons s L ih =>
    intro st h
    rw [List.foldl_cons, ih _ (fun x hx => h x (List.mem_cons_of_mem s hx)),
      processSection_score_eq st s (h s (List.mem_cons_self s L))]

lemma scanFirst_some {α : Type} (f : List Char → Option α) :
    ∀ (l : List Char) (r : α), scanFirst f l = some r → ∃ l2, f l2 = some r := by
  intro l
  induction l with
  | nil => intro r h; exact ⟨[], h⟩
  | cons c cs ih =>
    intro r h
    unfold scanFirst at h
    cases hf : f (c :: cs) with
    | some x =>
      rw [hf] at h
      exact ⟨c :: cs, by rw [hf]; exact h⟩
    | none =>
      rw [hf] at h
      exact ih r h

lemma ciPref_take (p : List Char) :
    ∀ l, ciPref p l = true → (l.take p.length).map Char.toLower = p := by
  induction p with
  | nil => intro l _; simp
  | cons a as ih =>
    intro l h
    cases l with
    | nil => simp [ciPref] at h
    | cons c cs =>
      simp only [ciPref, Bool.and_eq_true, beq_iff_eq] at h
      simp only [List.length_cons, List.take_succ_cons, List.map_cons, h.1, ih cs h.2]

lemma riskAttempt_lower (l c : List Char) (h : riskAttempt l = some c) :
    c.map Char.toLower = "high".data ∨ c.map Char.toLower = "medium".data ∨
      c.map Char.toLower = "low".data := by
  unfold riskAttempt at h
  by_cases h0 : ciPref "risk level:".data l = true
  · rw [if_pos h0] at h
    dsimp only at h
    generalize (l.drop 11).dropWhile Char.isWhitespace = m at h
    by_cases hh : ciPref "high".data m = true
    · rw [if_pos hh] at h
      rw [Option.some_inj] at h
      left
      rw [← h]
      exact ciPref_take "high".data m hh
    · rw [if_neg hh] at h
      by_cases hm : ciPref "medium".data m = true
      · rw [if_pos hm] at h
        rw [Option.some_inj] at h
        right; left
        rw [← h]
        exact ciPref_take "medium".data m hm
      · rw [if_neg hm] at h
        by_cases hl : ciPref "low".data m = true
        · rw [if_pos hl] at h
          rw [Option.some_inj] at h
          right; right
          rw [← h]
          exact ciPref_take "low".data m hl
        · rw [if_neg hl] at h
          exact absurd h (by simp)
  · rw [if_neg h0] at h
    exact absurd h (by simp)

lemma matchRiskLevel_lower (s : String) (c : List Char) (h : matchRiskLevel s = some c) :
    jsToLower (String.mk c) ∈ (["low", "medium", "high"] : List String) := by
  obtain ⟨l2, hl2⟩ := scanFirst_some riskAttempt s.data c h
  unfold jsToLower
  rcases riskAttempt_lower l2 c hl2 with hc | hc | hc <;> rw [hc] <;> decide

lemma riskCountsLevel_mem (n : ℕ) :
    jsToLower (riskCountsLevel n) ∈ (["low", "medium", "high"] : List String) := by
  unfold riskCountsLevel
  split_ifs <;> decide

lemma rl1Of_mem (s : String) (st : ParsedAnalysis)
    (h : jsToLower st.riskLevel ∈ (["low", "medium", "high"] : List String)) :
    jsToLower (rl1Of s st) ∈ (["low", "medium", "high"] : List String) := by
  unfold rl1Of
  cases hrm : matchRiskLevel s with
  | some c => exact matchRiskLevel_lower s c hrm
  | none => exact h

lemma rl2Of_mem (s : String) (st : ParsedAnalysis)
    (h : jsToLower st.riskLevel ∈ (["low", "medium", "high"] : List String)) :
    jsToLower (rl2Of s st) ∈ (["low", "medium", "high"] : List String) := by
  unfold rl2Of
  cases hrs : riskSectionOf s with
  | some t =>
    by_cases hsome : (matchRiskLevel s).isSome = true
    · rw [if_pos hsome]
      exact rl1Of_mem s st h
    · rw [if_neg hsome]
      exact riskCountsLevel_mem _
  | none => exact rl1Of_mem s st h

lemma rl3Of_mem (s : String) (st : ParsedAnalysis)
    (h : jsToLower st.riskLevel ∈ (["low", "medium", "high"] : List String)) :
    jsToLower (rl3Of s st) ∈ (["low", "medium", "high"] : List String) := by
  unfold rl3Of
  cases hcs : concerningSectionOf s with
  | some t =>
    dsimp only
    split_ifs with hcond
    · decide
    · exact rl2Of_mem s st h
  | none => exact rl2Of_mem s st h

lemma sec6_rl_mem (s : String) (st : ParsedAnalysis)
    (h : jsToLower st.riskLevel ∈ (["low", "medium", "high"] : List String)) :
    jsToLower (sec6 s st).riskLevel ∈ (["low", "medium", "high"] : List String) :=
  rl3Of_mem s st h

lemma applyTag6_rl_mem (s : String) (st : ParsedAnalysis)
    (h : jsToLower st.riskLevel ∈ (["low", "medium", "high"] : List String)) :
    jsToLower (applyTag "6." sec6 s st).riskLevel ∈ (["low", "medium", "high"] : List String) := by
  unfold applyTag
  split
  · exact sec6_rl_mem s st h
  · exact h

lemma processSection_rl_mem (st : ParsedAnalysis) (s : String)
    (h : jsToLower st.riskLevel ∈ (["low", "medium", "high"] : List String)) :
    jsToLower (processSection st s).riskLevel ∈ (["low", "medium", "high"] : List String) := by
  unfold processSection
  split
  · exact h
  · rw [applyTag_rl9, applyTag_rl8, applyTag_rl7]
    refine applyTag6_rl_mem s _ ?_
    rw [applyTag_rl5, applyTag_rl4, applyTag_rl3, applyTag_rl2, applyTag_rl1]
    exact h

lemma foldl_rl_mem (L : List String) :
    ∀ st : ParsedAnalysis, jsToLower st.riskLevel ∈ (["low", "medium", "high"] : List String) →
      jsToLower (L.foldl processSection st).riskLevel ∈ (["low", "medium", "high"] : List String) := by
  induction L with
  | nil => intro st h; exact h
  | cons s L ih => intro st h; exact ih _ (processSection_rl_mem st s h)

lemma foldl_riskLevel_eq (L : List String) :
    ∀ st : ParsedAnalysis, (∀ s ∈ L, jsStartsWith s "6." = false) →
      (L.foldl processSection st).riskLevel = st.riskLevel := by
  induction L with
  | nil => intro st _; rfl
  | cons s L ih =>
    intro st h
    rw [List.foldl_cons, ih _ (fun x hx => h x (List.mem_cons_of_mem s hx)),
      processSection_riskLevel_eq st s (h s (List.mem_cons_self s L))]

/-- C1 counterexample: on the spec's single-line Scenario A input the bullet
extraction is line-based, so only one concerning point is found and the
explicit "Low" token is kept; the output riskLevel is "Low", not "High". -/
theorem claim_C1_counterexample :
    (parseGeminiResponse "6. Risk Assessment: Risk Level: Low Risk Factors: - a - b - c - d - e - f Concerning Elements: - x - y - z - w").riskLevel = "Low" ∧
    (parseGeminiResponse "6. Risk Assessment: Risk Level: Low Risk Factors: - a - b - c - d - e - f Concerning Elements: - x - y - z - w").riskLevel ≠ "High" := by
  constructor
  · decide
  · decide

/-- C1 (amended): when a section starting with "6." has a truthy
`Concerning Elements` split whose line-based bullet extraction yields more
than 3 items, processing that section forces riskLevel to "High" regardless
of any explicit lower token; the rule only ever sets "High", never a lower
value. The spec's Scenario A input triggers this only when its bullets are
newline-separated. -/
theorem claim_C1_main (s : String) (st : ParsedAnalysis)
    (h6 : jsStartsWith s "6." = true) (t : String)
    (hc : concerningSectionOf s = some t)
    (hlen : 3 < (extractListItems t).length) :
    (processSection st s).riskLevel = "High" := by
  obtain ⟨r, hr⟩ := jsStartsWith_shape s "6." '6' '.' rfl h6
  rw [processSection_eq_sec6 st s r hr]
  show rl3Of s st = "High"
  have hcp : cpOf s st = extractListItems t := by
    unfold cpOf
    rw [hc]
  unfold rl3Of
  rw [hc]
  dsimp only
  rw [hcp]
  split_ifs with hcond
  · rfl
  · push_neg at hcond
    exact hcond hlen

/-- C1 witness: the Scenario A content with newline-separated bullets yields
4 concerning points and the upgrade fires over the explicit "Low". -/
theorem claim_C1_witness :
    (processSection initState "6. Risk Assessment:\nRisk Level: Low\nRisk Factors:\n- a\n- b\n- c\n- d\n- e\n- f\nConcerning Elements:\n- x\n- y\n- z\n- w").riskLevel = "High" :=
  claim_C1_main "6. Risk Assessment:\nRisk Level: Low\nRisk Factors:\n- a\n- b\n- c\n- d\n- e\n- f\nConcerning Elements:\n- x\n- y\n- z\n- w"
    initState (by decide) "\n- x\n- y\n- z\n- w" (by decide) (by decide)

/-- C2: for every input the output completionScore lies in [0, 1], and it
equals the default 0.5 whenever no section carries the "8." tag (so section
8 never assigns it). -/
theorem claim_C2_main (text : String) :
    (0 ≤ (parseGeminiResponse text).completionScore ∧
      (parseGeminiResponse text).completionScore ≤ 1) ∧
    ((∀ s ∈ splitSections text, jsStartsWith s "8." = false) →
      (parseGeminiResponse text).completionScore = 1/2) := by
  constructor
  · exact foldl_score_bound (splitSections text) initState
      ⟨by norm_num [initState], by norm_num [initState]⟩
  · intro hno
    exact foldl_score_eq (splitSections text) initState hno

/-- C2 witness: an input with no sections at all keeps the default 0.5 and
satisfies the range invariant. -/
theorem claim_C2_witness :
    0 ≤ (parseGeminiResponse "hello").completionScore ∧
    (parseGeminiResponse "hello").completionScore = 1/2 :=
  ⟨(claim_C2_main "hello").1.1, (claim_C2_main "hello").2 (by decide)⟩

/-- C3 counterexample: the risk-level capture is case-insensitive but keeps
the input's case, so "Risk Level: low" produces the output "low", which is
none of the three exact strings "Low", "Medium", "High". -/
theorem claim_C3_counterexample :
    (parseGeminiResponse "6. Risk Assessment: Risk Level: low").riskLevel = "low" ∧
    ¬((parseGeminiResponse "6. Risk Assessment: Risk Level: low").riskLevel
        ∈ (["Low", "Medium", "High"] : List String)) := by
  constructor
  · decide
  · decide

/-- C3 (amended): for every input, including the empty string, the output
riskLevel is a case-variant of one of "Low", "Medium", "High" (its lowercase
form is "low", "medium" or "high"), and it is exactly the default "Medium"
whenever no section carries the "6." tag. -/
theorem claim_C3_main (text : String) :
    jsToLower (parseGeminiResponse text).riskLevel ∈
      (["low", "medium", "high"] : List String) ∧
    ((∀ s ∈ splitSections text, jsStartsWith s "6." = false) →
      (parseGeminiResponse text).riskLevel = "Medium") := by
  constructor
  · exact foldl_rl_mem (splitSections text) initState (by decide)
  · intro hno
    exact foldl_riskLevel_eq (splitSections text) initState hno

/-- C3 witness: a tagless input keeps the default "Medium". -/
theorem claim_C3_witness :
    jsToLower (parseGeminiResponse "no sections at all").riskLevel ∈
      (["low", "medium", "high"] : List String) ∧
    (parseGeminiResponse "no sections at all").riskLevel = "Medium" :=
  ⟨(claim_C3_main "no sections at all").1,
    (claim_C3_main "no sections at all").2 (by decide)⟩

/-- C4: the captured score is normalized by scale — values in [0,1] kept,
(1,10] divided by 10, (10,100] divided by 100, larger values divided by 10
and clamped to 1 — and the Scenario B and C inputs yield 0.85 and 0.7. -/
theorem claim_C4_main (q : ℚ) :
    (0 ≤ q → q ≤ 1 → normalizeScore q = q) ∧
    (1 < q → q ≤ 10 → normalizeScore q = q / 10) ∧
    (10 < q → q ≤ 100 → normalizeScore q = q / 100) ∧
    (100 < q → normalizeScore q = min (q / 10) 1 ∧ normalizeScore q = 1) ∧
    (parseGeminiResponse "8. Completion Score: Score: 85").completionScore = 85 / 100 ∧
    (parseGeminiResponse "8. Completion Score: Score: 7").completionScore = 7 / 10 := by
  refine ⟨?_, ?_, ?_, ?_, ?_, ?_⟩
  · intro h1 h2
    unfold normalizeScore
    rw [if_pos (⟨h1, h2⟩ : 0 ≤ q ∧ q ≤ 1)]
  · intro h1 h2
    unfold normalizeScore
    rw [if_neg (by rintro ⟨-, hq⟩; linarith : ¬(0 ≤ q ∧ q ≤ 1)),
      if_pos (⟨h1, h2⟩ : 1 < q ∧ q ≤ 10)]
  · intro h1 h2
    unfold normalizeScore
    rw [if_neg (by rintro ⟨-, hq⟩; linarith : ¬(0 ≤ q ∧ q ≤ 1)),
      if_neg (by rintro ⟨-, hq⟩; linarith : ¬(1 < q ∧ q ≤ 10)),
      if_pos (⟨h1, h2⟩ : 10 < q ∧ q ≤ 100)]
  · intro h1
    unfold normalizeScore
    rw [if_neg (by rintro ⟨-, hq⟩; linarith : ¬(0 ≤ q ∧ q ≤ 1)),
      if_neg (by rintro ⟨-, hq⟩; linarith : ¬(1 < q ∧ q ≤ 10)),
      if_neg (by rintro ⟨-, hq⟩; linarith : ¬(10 < q ∧ q ≤ 100))]
    refine ⟨rfl, ?_⟩
    have h10 : (1 : ℚ) ≤ q / 10 := by
      rw [le_div_iff₀ (by norm_num : (0:ℚ) < 10)]
      linarith
    exact min_eq_right h10
  · have h1 : (parseGeminiResponse "8. Completion Score: Score: 85").completionScore
        = normalizeScore (parseFloatTok ['8', '5']) := rfl
    have h2 : parseFloatTok ['8', '5'] = ((85 : ℕ) : ℚ) + 0 := rfl
    rw [h1, h2]
    unfold normalizeScore
    rw [if_neg (by norm_num), if_neg (by norm_num), if_pos (by constructor <;> norm_num)]
    norm_num
  · have h1 : (parseGeminiResponse "8. Completion Score: Score: 7").completionScore
        = normalizeScore (parseFloatTok ['7']) := rfl
    have h2 : parseFloatTok ['7'] = ((7 : ℕ) : ℚ) + 0 := rfl
    rw [h1, h2]
    unfold normalizeScore
    rw [if_neg (by norm_num), if_pos (by constructor <;> norm_num)]
    norm_num

/-- C4 witness: the four scale branches applied at 1/2, 7, 85 and 150. -/
theorem claim_C4_witness :
    normalizeScore (1/2) = 1/2 ∧ normalizeScore 7 = 7 / 10 ∧
    normalizeScore 85 = 85 / 100 ∧ normalizeScore 150 = 1 :=
  ⟨(claim_C4_main (1/2)).1 (by norm_num) (by norm_num),
    (claim_C4_main 7).2.1 (by norm_num) (by norm_num),
    (claim_C4_main 85).2.2.1 (by norm_num) (by norm_num),
    ((claim_C4_main 150).2.2.2.1 (by norm_num)).2⟩

/-- C5 counterexample: with no section 8, the tracked fields empty and two
missing clauses, the output completionScore is the untouched default 0.5,
not max(0, 0/8 - 0.2) = 0. -/
theorem claim_C5_counterexample :
    (parseGeminiResponse "7. Missing or Unclear Elements:\n- a\n- b").missingClauses.length = 2 ∧
    (parseGeminiResponse "7. Missing or Unclear Elements:\n- a\n- b").parties = [] ∧
    (parseGeminiResponse "7. Missing or Unclear Elements:\n- a\n- b").dates = [] ∧
    (parseGeminiResponse "7. Missing or Unclear Elements:\n- a\n- b").keyTerms = [] ∧
    (parseGeminiResponse "7. Missing or Unclear Elements:\n- a\n- b").riskFactors = [] ∧
    (parseGeminiResponse "7. Missing or Unclear Elements:\n- a\n- b").paymentTerms = "" ∧
    (parseGeminiResponse "7. Missing or Unclear Elements:\n- a\n- b").summary = "" ∧
    (parseGeminiResponse "7. Missing or Unclear Elements:\n- a\n- b").completionScore = 1/2 ∧
    (parseGeminiResponse "7. Missing or Unclear Elements:\n- a\n- b").completionScore ≠ 0 := by
  have hs : (parseGeminiResponse "7. Missing or Unclear Elements:\n- a\n- b").completionScore
      = 1/2 := rfl
  refine ⟨by decide, by decide, by decide, by decide, by decide, by decide, by decide,
    hs, ?_⟩
  rw [hs]
  norm_num

/-- C5 (amended): the fallback formula lives inside the section-8 branch, so
an input with no section tagged "8." keeps the default completionScore 0.5
no matter which fields are empty or how many clauses are missing. -/
theorem claim_C5_main (text : String)
    (h : ∀ s ∈ splitSections text, jsStartsWith s "8." = false) :
    (parseGeminiResponse text).completionScore = 1/2 :=
  foldl_score_eq (splitSections text) initState h

/-- C5 witness: the Scenario D input evaluates to the default 0.5. -/
theorem claim_C5_witness :
    (parseGeminiResponse "7. Missing or Unclear Elements:\n- a\n- b").completionScore = 1/2 :=
  claim_C5_main "7. Missing or Unclear Elements:\n- a\n- b" (by decide)

/-- C6 counterexample: the cleanup removes only the "and Purpose:" label
token, not the clause text after it, so the Scenario E input yields
"Employment Agreementto define terms" rather than "Employment Agreement". -/
theorem claim_C6_counterexample :
    (parseGeminiResponse "1. Document Type and Purpose: Type: Employment Agreement and Purpose: to define terms").documentType = "Employment Agreementto define terms" ∧
    (parseGeminiResponse "1. Document Type and Purpose: Type: Employment Agreement and Purpose: to define terms").documentType ≠ "Employment Agreement" := by
  constructor
  · decide
  · decide

/-- C6 (amended): the captured value has the first "and Purpose" label token
removed (with surrounding whitespace and optional colon, leaving any clause
text that follows), then the first "- Purpose" and "Purpose" tokens,
parentheticals and trailing colons/whitespace; on the Scenario E input this
gives "Employment Agreementto define terms". When no Type label matches, the
documentType keeps its previous (default) value. -/
theorem claim_C6_main :
    (parseGeminiResponse "1. Document Type and Purpose: Type: Employment Agreement and Purpose: to define terms").documentType = "Employment Agreementto define terms" ∧
    (∀ (s : String) (st : ParsedAnalysis), jsStartsWith s "1." = true →
      matchTypeChain s = none → (processSection st s).documentType = st.documentType) := by
  constructor
  · decide
  · intro s st h1 hnone
    obtain ⟨r, hr⟩ := jsStartsWith_shape s "1." '1' '.' rfl h1
    rw [processSection_eq_sec1 st s r hr]
    unfold sec1
    dsimp only
    rw [hnone]

/-- C6 witness: a section-1 text with no Type label keeps the default. -/
theorem claim_C6_witness :
    (processSection initState "1. nothing labelled here").documentType = "Document" :=
  claim_C6_main.2 "1. nothing labelled here" initState (by decide) (by decide)

/-- C7 counterexample: a bullet item is split on every colon and the value is
the piece between the first and second colon, so "- Start: 10:30" stores the
value "10", not everything after the first colon. -/
theorem claim_C7_counterexample :
    (parseGeminiResponse "3. Important Dates:\n- Start: 10:30").dates = [("Start", "10")] ∧
    ¬(("Start", "10:30") ∈ (parseGeminiResponse "3. Important Dates:\n- Start: 10:30").dates) := by
  constructor
  · decide
  · decide

/-- C7 (amended): each bullet item is split on all colons; the label is the
trimmed piece before the first colon and the value the trimmed piece between
the first and second colon; items without a colon leave the mapping
unchanged, and a later duplicate label overwrites the earlier value. -/
theorem claim_C7_main :
    (parseGeminiResponse "3. Important Dates:\n- Start: 10:30\n- NoColonHere\n- Start: 11").dates = [("Start", "11")] ∧
    (∀ (ds : List (String × String)) (item : String),
      item.data.contains ':' = false → dateStep ds item = ds) := by
  constructor
  · decide
  · intro ds item h
    simp only [dateStep, h, Bool.false_eq_true, if_false]

/-- C7 witness: a colon-free item is discarded by `dateStep`. -/
theorem claim_C7_witness : dateStep [("k", "v")] "NoColon" = [("k", "v")] :=
  claim_C7_main.2 [("k", "v")] "NoColon" (by decide)

/-- C8: for every input, terminationClauses is exactly the keyTerms filtered
by the five termination substrings, hence a sublist (subset, in keyTerms
order) of keyTerms, which itself keeps every entry. -/
theorem claim_C8_main (text : String) :
    (parseGeminiResponse text).terminationClauses.Sublist
      (parseGeminiResponse text).keyTerms ∧
    (parseGeminiResponse text).terminationClauses =
      (parseGeminiResponse text).keyTerms.filter isTerminationTerm := by
  refine ⟨?_, rfl⟩
  show List.Sublist
    (((splitSections text).foldl processSection initState).keyTerms.filter isTerminationTerm)
    (((splitSections text).foldl processSection initState).keyTerms)
  exact List.filter_sublist _

/-- C9: the normalizer is total — the try-block body always produces a
record (every string primitive it uses is total, so the catch never fires)
— and the empty input produces exactly the fully-defaulted record that the
catch branch would return, so the output is all-extracted or all-default. -/
theorem claim_C9_main :
    (∀ text : String, parseAttempt text = Except.ok (parseGeminiResponse text)) ∧
    parseGeminiResponse "" = defaultAnalysis :=
  ⟨fun _ => rfl, rfl⟩

/-- C10: every section starting with "8." makes the numeric-capture chain
succeed (the tag digit itself is a numeric token), so the completion score
computed for that section does not depend on the fallback inputs — the
presentFields/missing-clauses fallback branch is unreachable. -/
theorem claim_C10_main (s : String) (st st' : ParsedAnalysis)
    (h : jsStartsWith s "8." = true) :
    (∃ c, scoreCapture s = some c) ∧
    (sec8 s st).completionScore = (sec8 s st').completionScore := by
  obtain ⟨r, hr⟩ := jsStartsWith_shape s "8." '8' '.' rfl h
  have hnum : numCapture ('8' :: '.' :: r) = some ('8' :: fracOf ('.' :: r)) := by
    unfold numCapture
    have h8 : Char.isDigit '8' = true := by decide
    have hdot : Char.isDigit '.' = false := by decide
    simp [List.takeWhile_cons, h8, hdot]
  have hp3 : ∃ c, scanFirst numCapture s.data = some c := by
    rw [hr]
    unfold scanFirst
    rw [hnum]
    exact ⟨_, rfl⟩
  have hcap : ∃ c, scoreCapture s = some c := by
    unfold scoreCapture
    cases h1 : scanFirst scoreAttempt1 s.data with
    | some c => exact ⟨c, rfl⟩
    | none =>
      cases h2 : scanFirst scoreAttempt2 s.data with
      | some c => exact ⟨c, rfl⟩
      | none =>
        obtain ⟨c, hc⟩ := hp3
        rw [hc]
        exact ⟨c, rfl⟩
  refine ⟨hcap, ?_⟩
  obtain ⟨c, hc⟩ := hcap
  unfold sec8
  dsimp only
  rw [hc]

/-- C10 witness: a section-8 text with no explicit score still captures the
tag digit, and two states with different fallback inputs yield the same
score. -/
theorem claim_C10_witness :
    (∃ c, scoreCapture "8. Completion Score: no numeric token" = some c) ∧
    (sec8 "8. Completion Score: no numeric token" initState).completionScore =
      (sec8 "8. Completion Score: no numeric token"
        {initState with missingClauses := ["m1", "m2", "m3", "m4"]}).completionScore :=
  claim_C10_main "8. Completion Score: no numeric token" initState
    {initState with missingClauses := ["m1", "m2", "m3", "m4"]} (by decide)

end GenClario
